import Mathlib

/-!
Shallow embedding of the hamsteroid input-driven control core:
the cooldown timer (src/cooldown.rs, backed by the bevy 0.6 Timer),
the input-event producers (src/inputs.rs), the heat accumulator and the
per-tick control/actuation step apply_forces (src/main.rs).
f32 values are modelled as exact rationals.
-/

namespace Hamsteroid

/-- Exact model of a glam `Vec2`: the two `f32` components become rationals. -/
structure Vec2 where
  x : ℚ
  y : ℚ
deriving DecidableEq

instance : Zero Vec2 := ⟨⟨0, 0⟩⟩

instance : Add Vec2 := ⟨fun a b => ⟨a.x + b.x, a.y + b.y⟩⟩

instance : HMul Vec2 ℚ Vec2 := ⟨fun v c => ⟨v.x * c, v.y * c⟩⟩

/-- Model of glam `Vec2::normalize_or_zero`: the zero vector (reciprocal length
not finite and positive) maps to the zero vector, any other vector to a unit
vector pointing the same way.  Exact unit-length scaling is irrational over ℚ,
so the model keeps the result up to its positive scale factor: it is zero
exactly when the glam result is zero, and a positive multiple of the glam result
otherwise.  No theorem below depends on the magnitude of a non-zero result. -/
def Vec2.normalize_or_zero (v : Vec2) : Vec2 := if v = 0 then 0 else v

/-- Model of glam `Vec2::normalize`: multiplication by the reciprocal length,
which for the zero vector yields non-finite (NaN) components — still a value,
which callers may embed in an event.  As with `Vec2.normalize_or_zero` the
model keeps the result up to its positive scale factor, with the zero vector
itself standing in for the NaN vector produced on zero input; no theorem below
inspects the payload of a zero-input normalize. -/
def Vec2.normalize (v : Vec2) : Vec2 := v

/-- src/inputs.rs `InputEvent`: the closed set of semantic input events. -/
inductive InputEvent where
  | Impulse (direction : Vec2)
  | Force (direction : Vec2)
  | Stabilisation
  | Accelerate
deriving DecidableEq

/-- The two event kinds gated by the shared cooldown in `apply_forces`. -/
def InputEvent.usesCooldown : InputEvent → Bool
  | InputEvent.Impulse _ => true
  | InputEvent.Accelerate => true
  | _ => false

/-- Recognises `Force` events. -/
def InputEvent.isForce : InputEvent → Bool
  | InputEvent.Force _ => true
  | _ => false

/-- The keyboard keys consumed by `keyboard_system` (src/inputs.rs). -/
inductive Key where
  | a
  | space
  | up
  | down
  | left
  | right
deriving DecidableEq

/-- Snapshot of the bevy `Input<KeyCode>` state for one tick: which of the
consumed keys are currently pressed, were just pressed, were just released. -/
structure KeyboardInputs where
  pressed : Key → Bool
  just_pressed : Key → Bool
  just_released : Key → Bool

/-- src/inputs.rs `keyboard_direction`: sum the unit axis vectors of the held
arrow keys, then `normalize_or_zero` the sum. -/
def keyboard_direction (keyboard_inputs : KeyboardInputs) : Vec2 :=
  let direction : Vec2 := 0
  let direction := if keyboard_inputs.pressed Key.up then direction + ⟨0, 1⟩ else direction
  let direction := if keyboard_inputs.pressed Key.down then direction + ⟨0, -1⟩ else direction
  let direction := if keyboard_inputs.pressed Key.left then direction + ⟨-1, 0⟩ else direction
  let direction := if keyboard_inputs.pressed Key.right then direction + ⟨1, 0⟩ else direction
  direction.normalize_or_zero

/-- src/inputs.rs `keyboard_system`: the ordered list of events sent to the
`InputEvent` writer for one tick of keyboard input. -/
def keyboard_system (keyboard_inputs : KeyboardInputs) : List InputEvent :=
  (if keyboard_inputs.just_pressed Key.a then [InputEvent.Accelerate] else []) ++
    (if keyboard_inputs.just_pressed Key.space then [InputEvent.Stabilisation] else []) ++
      (if keyboard_inputs.just_released Key.space then
        (let direction := keyboard_direction keyboard_inputs
         if direction ≠ 0 then [InputEvent.Impulse direction] else [])
       else []) ++
        (if keyboard_inputs.pressed Key.space = false then
          (let direction := keyboard_direction keyboard_inputs
           if direction ≠ 0 then [InputEvent.Force direction] else [])
         else [])

/-- Snapshot of one gamepad for one tick: the South button edge flags and the
left stick axis values returned by `axes.get`. -/
structure Gamepad where
  south_just_pressed : Bool
  south_just_released : Bool
  left_stick_x : ℚ
  left_stick_y : ℚ
deriving DecidableEq

/-- Body of the per-gamepad loop in src/inputs.rs `gamepad_system`: a
`Stabilisation` on South press, and on South release an `Impulse` whose
direction is the normalized left-stick vector — sent unconditionally, with no
zero-vector check (unlike the keyboard path). -/
def gamepad_events (gamepad : Gamepad) : List InputEvent :=
  (if gamepad.south_just_pressed then [InputEvent.Stabilisation] else []) ++
    (if gamepad.south_just_released then
      [InputEvent.Impulse (Vec2.normalize ⟨gamepad.left_stick_x, gamepad.left_stick_y⟩)]
     else [])

/-- src/inputs.rs `gamepad_system`: fold over all connected gamepads. -/
def gamepad_system (gamepads : List Gamepad) : List InputEvent :=
  gamepads.foldl (fun events gamepad => events ++ gamepad_events gamepad) []

/-- Model of the bevy 0.6 `Timer` backing `Cooldown` (src/cooldown.rs): a
stopwatch-elapsed value, a fixed duration, the repeating flag, the cached
`finished` flag (queries return the stored flag; only `tick` recomputes it),
the `times_finished` counter and the stopwatch paused flag.  Seconds are exact
rationals.  The behaviour is pinned by the cooldown unit
test, reproduced below as `cooldown_unit_test`. -/
structure Timer where
  elapsed : ℚ
  duration : ℚ
  repeating : Bool
  finished : Bool
  times_finished : ℕ
  paused : Bool
deriving DecidableEq

/-- bevy `Timer::new` / `Timer::from_seconds`: zero elapsed, not finished. -/
def Timer.new (duration : ℚ) (repeating : Bool) : Timer :=
  { elapsed := 0, duration := duration, repeating := repeating,
    finished := false, times_finished := 0, paused := false }

/-- bevy `Timer::tick`: no-op when paused; a finished non-repeating timer only
clears `times_finished`; otherwise advance elapsed, recompute `finished`, and
on finishing clamp elapsed to the duration (non-repeating) or wrap it around
(repeating; the nanosecond integer division becomes a rational floor —
unreachable here, `Cooldown` timers are never repeating). -/
def Timer.tick (t : Timer) (delta : ℚ) : Timer :=
  if t.paused then t
  else if !t.repeating && t.finished then { t with times_finished := 0 }
  else
    let elapsed := t.elapsed + delta
    if t.duration ≤ elapsed then
      if t.repeating then
        let n := (elapsed / t.duration).floor.toNat
        { t with elapsed := elapsed - t.duration * n, finished := true, times_finished := n }
      else
        { t with elapsed := t.duration, finished := true, times_finished := 1 }
    else
      { t with elapsed := elapsed, finished := false, times_finished := 0 }

/-- bevy `Timer::reset`: zero the stopwatch and clear the finished state. -/
def Timer.reset (t : Timer) : Timer :=
  { t with elapsed := 0, finished := false, times_finished := 0 }

/-- src/cooldown.rs `Cooldown`: a wrapper around a non-repeating timer. -/
structure Cooldown where
  timer : Timer
deriving DecidableEq

/-- src/cooldown.rs `Cooldown::from_seconds`: build a non-repeating timer and
immediately tick it by the whole duration so it starts available. -/
def Cooldown.from_seconds (seconds : ℚ) : Cooldown :=
  { timer := (Timer.new seconds false).tick seconds }

/-- src/cooldown.rs `Cooldown::start`: reset the timer. -/
def Cooldown.start (c : Cooldown) : Cooldown := { timer := c.timer.reset }

/-- src/cooldown.rs `Cooldown::tick`: advance the timer. -/
def Cooldown.tick (c : Cooldown) (delta : ℚ) : Cooldown := { timer := c.timer.tick delta }

/-- src/cooldown.rs `Cooldown::finished`. -/
def Cooldown.finished (c : Cooldown) : Bool := c.timer.finished

/-- Rust `f32::clamp(x, 0., 1.)`: pin below-range values to 0 and
above-range values to 1. -/
def clamp01 (x : ℚ) : ℚ := if x < 0 then 0 else if 1 < x then 1 else x

/-- src/main.rs `Heat`: the bounded activity scalar carried by the player. -/
structure Heat where
  amount : ℚ
deriving DecidableEq

/-- src/main.rs `Heat::inc`: add the delta and clamp the amount to [0, 1]. -/
def Heat.inc (h : Heat) (value : ℚ) : Heat := { amount := clamp01 (h.amount + value) }

/-- src/main.rs `Constants`: the movement and trail configuration values. -/
structure Constants where
  default_damping : ℚ
  stabilisation_damping : ℚ
  impulse_value : ℚ
  force_value : ℚ
  acceleration_value : ℚ
  trail_size_scale : ℚ
deriving DecidableEq

/-- src/main.rs `impl Default for Constants`. -/
def Constants.default : Constants :=
  { stabilisation_damping := 6, default_damping := 1, impulse_value := 15,
    force_value := 6, acceleration_value := 3 / 10, trail_size_scale := 1 / 2 }

/-- The per-body components read and written by `apply_forces`:
`RigidBodyVelocity.linvel`, the effective inverse mass from
`RigidBodyMassProps`, `RigidBodyDamping.linear_damping`,
`RigidBodyForces.force`, and the `Heat` component. -/
structure Body where
  linvel : Vec2
  effective_inv_mass : ℚ
  linear_damping : ℚ
  force : Vec2
  heat : Heat
deriving DecidableEq

/-- rapier `RigidBodyVelocity::apply_impulse`: add the impulse scaled by the
body effective inverse mass to the linear velocity. -/
def Body.apply_impulse (b : Body) (impulse : Vec2) : Body :=
  { b with linvel := b.linvel + impulse * b.effective_inv_mass }

/-- The state threaded through `apply_forces`: the shared `ImpulseCooldown`
local and the queried controlled bodies (the `Player` query). -/
structure ControlState where
  cooldown : Cooldown
  bodies : List Body
deriving DecidableEq

/-- One arm of the `match input_event` in src/main.rs `apply_forces`:
`Impulse` and `Accelerate` skip when the shared cooldown is unfinished and
otherwise restart it; `Stabilisation` and `Force` are unconditional.  Field
updates follow the statement order of the Rust loop bodies. -/
def applyInputEvent (constants : Constants) (s : ControlState) (e : InputEvent) : ControlState :=
  match e with
  | InputEvent.Impulse direction =>
    if !s.cooldown.finished then s
    else
      let impulse := direction * constants.impulse_value
      { cooldown := s.cooldown.start,
        bodies := s.bodies.map fun b =>
          let b := { b with linear_damping := constants.default_damping }
          let b := b.apply_impulse impulse
          { b with heat := b.heat.inc (1 / 10) } }
  | InputEvent.Stabilisation =>
    { s with
      bodies := s.bodies.map fun b =>
        let b := { b with linear_damping := constants.stabilisation_damping }
        { b with heat := b.heat.inc (-1) } }
  | InputEvent.Accelerate =>
    if !s.cooldown.finished then s
    else
      { cooldown := s.cooldown.start,
        bodies := s.bodies.map fun b =>
          let impulse : Vec2 := b.linvel * constants.acceleration_value
          let b := b.apply_impulse impulse
          { b with heat := b.heat.inc (1 / 10) } }
  | InputEvent.Force direction =>
    let force := direction * constants.force_value
    { s with
      bodies := s.bodies.map fun b =>
        let b := { b with linear_damping := constants.default_damping }
        let b := { b with force := force }
        { b with heat := b.heat.inc (1 / 100) } }

/-- src/main.rs `apply_forces`: tick the shared cooldown by the frame delta,
then process the input events of this tick in emission order. -/
def apply_forces (constants : Constants) (dt : ℚ)
    (events : List InputEvent) (s : ControlState) : ControlState :=
  let s := { s with cooldown := s.cooldown.tick dt }
  events.foldl (applyInputEvent constants) s

/-- src/main.rs `impl Default for ImpulseCooldown`: a 0.35 second cooldown
(0.35 is exactly 7/20 as an f32 literal rounds to a nearby value; the exact
rational model uses the literal value 7/20). -/
def impulse_cooldown_default : Cooldown := Cooldown.from_seconds (7 / 20)

/-- The player body as spawned in src/main.rs `setup_physics`: zero velocity
and force, the default damping of 1, heat 0; the effective inverse mass is
taken as 1 for concrete runs. -/
def player_body : Body :=
  { linvel := 0, effective_inv_mass := 1, linear_damping := 1, force := 0,
    heat := { amount := 0 } }

/-- The control state at startup: the default `ImpulseCooldown` local and the
single spawned player body. -/
def initial_state : ControlState :=
  { cooldown := impulse_cooldown_default, bodies := [player_body] }

/-- One operation of the `Cooldown` public interface, for statements about
arbitrary call sequences. -/
inductive CooldownOp where
  | start
  | tick (delta : ℚ)
deriving DecidableEq

/-- Apply one `Cooldown` interface operation. -/
def applyCooldownOp (c : Cooldown) (op : CooldownOp) : Cooldown :=
  match op with
  | CooldownOp.start => c.start
  | CooldownOp.tick delta => c.tick delta

/-- The inputs of one simulation tick to the control step: the frame delta and the
input events emitted for that tick. -/
structure TickInput where
  dt : ℚ
  events : List InputEvent
deriving DecidableEq

/-- The trajectory of control states over a run: the initial state followed by
the state after each tick of `apply_forces`. -/
def control_trace (constants : Constants) (ticks : List TickInput)
    (s : ControlState) : List ControlState :=
  List.scanl (fun s t => apply_forces constants t.dt t.events s) s ticks

/-- Invariant of every cooldown built from `Cooldown.from_seconds 0`: duration
zero, non-repeating, not paused, non-negative elapsed time. -/
def ZeroDurationInv (c : Cooldown) : Prop :=
  c.timer.duration = 0 ∧ c.timer.repeating = false ∧ c.timer.paused = false ∧
    0 ≤ c.timer.elapsed

/-- A concrete state whose cooldown was just started (so it is not ready) and
whose single body carries some heat, used to exercise the stabilisation arm. -/
def stab_example_state : ControlState :=
  { cooldown := (Cooldown.from_seconds (7 / 20)).start,
    bodies := [{ player_body with heat := { amount := 1 / 5 } }] }

/-- Keyboard snapshot of a release tick: Up held, Space just released and no
longer pressed. -/
def kb_release_example : KeyboardInputs :=
  { pressed := fun k => match k with | Key.up => true | _ => false,
    just_pressed := fun _ => false,
    just_released := fun k => match k with | Key.space => true | _ => false }

section

attribute [local semireducible] Rat.add Rat.mul Rat.inv Rat.sub

/-- The unit test for `Cooldown` shipped in the repository (src/cooldown.rs `tests`),
replayed against the embedding: ready on construction, a full start / tick
cycle, saturation past the duration, and a restart. -/
theorem cooldown_unit_test :
    ((Cooldown.from_seconds 2).finished = true) ∧
      ((Cooldown.from_seconds 2).start.finished = false) ∧
      (((Cooldown.from_seconds 2).start.tick (3 / 4)).finished = false) ∧
      ((((Cooldown.from_seconds 2).start.tick (3 / 4)).tick (3 / 2)).finished = true) ∧
      (((((Cooldown.from_seconds 2).start.tick (3 / 4)).tick (3 / 2)).tick 10).finished = true) ∧
      ((((((Cooldown.from_seconds 2).start.tick (3 / 4)).tick (3 / 2)).tick 10).start).finished
        = false) ∧
      (((((((Cooldown.from_seconds 2).start.tick (3 / 4)).tick (3 / 2)).tick 10).start).tick
            (3 / 4)).finished = false) ∧
      ((((((((Cooldown.from_seconds 2).start.tick (3 / 4)).tick (3 / 2)).tick 10).start).tick
              (3 / 4)).tick (3 / 4)).finished = false) ∧
      (((((((((Cooldown.from_seconds 2).start.tick (3 / 4)).tick (3 / 2)).tick 10).start).tick
                (3 / 4)).tick (3 / 4)).tick (3 / 4)).finished = true) := by
  decide

/-- Ticking a timer never changes the duration, the repeating flag or the paused
flag. -/
theorem Timer.tick_fields (t : Timer) (d : ℚ) :
    (t.tick d).duration = t.duration ∧ (t.tick d).repeating = t.repeating ∧
      (t.tick d).paused = t.paused := by
  unfold Timer.tick
  by_cases hp : t.paused
  · simp [hp]
  · by_cases hft : t.finished <;> by_cases hr : t.repeating <;>
      by_cases hd : t.duration ≤ t.elapsed + d <;>
      simp [hp, hft, hr, hd]

/-- A finished non-repeating timer stays finished under `tick`, with its
elapsed value untouched (the early return in the bevy `Timer::tick`). -/
theorem Timer.tick_finished_of_finished (t : Timer) (hr : t.repeating = false)
    (hf : t.finished = true) (d : ℚ) :
    (t.tick d).finished = true ∧ (t.tick d).elapsed = t.elapsed := by
  unfold Timer.tick
  by_cases hp : t.paused
  · simp [hp, hf]
  · simp [hp, hr, hf]

/-- The reset of a timer spelled out as a structure literal. -/
theorem Timer.reset_spec (t : Timer) :
    t.reset = { elapsed := 0, duration := t.duration, repeating := t.repeating,
                finished := false, times_finished := 0, paused := t.paused } := rfl

/-- Running any sequence of ticks over a finished non-repeating timer keeps it
finished with the same elapsed value, and keeps it non-repeating. -/
theorem Timer.run_finished (dts : List ℚ) :
    ∀ t : Timer, t.repeating = false → t.finished = true →
      (dts.foldl Timer.tick t).finished = true ∧
        (dts.foldl Timer.tick t).elapsed = t.elapsed := by
  induction dts with
  | nil => intro t _ hf; exact ⟨hf, rfl⟩
  | cons d dts ih =>
    intro t hr hf
    have hstep := Timer.tick_finished_of_finished t hr hf d
    have hfields := Timer.tick_fields t d
    have hrest := ih (t.tick d) (by rw [hfields.2.1, hr]) hstep.1
    exact ⟨by simpa using hrest.1, by rw [List.foldl_cons, hrest.2, hstep.2]⟩

/-- One tick of a running (unfinished, non-repeating, unpaused) timer: it
finishes with elapsed clamped to the duration exactly when the new elapsed
value reaches the duration, and otherwise keeps running with the new value. -/
theorem Timer.tick_running_spec (t : Timer) (d : ℚ) (hp : t.paused = false)
    (hr : t.repeating = false) (hf : t.finished = false) :
    ((t.duration ≤ t.elapsed + d) →
        (t.tick d).finished = true ∧ (t.tick d).elapsed = t.duration) ∧
      ((¬ t.duration ≤ t.elapsed + d) →
        (t.tick d).finished = false ∧ (t.tick d).elapsed = t.elapsed + d) := by
  constructor <;> intro hd <;> (unfold Timer.tick; simp [hp, hr, hf, hd])

/-- Running non-negative ticks over a running (unfinished, elapsed below
duration) non-repeating unpaused timer: either the deltas reach the remaining
duration and the timer ends finished with elapsed clamped to the duration, or
they do not and the timer ends unfinished with elapsed the exact running sum. -/
theorem Timer.run_unfinished (dts : List ℚ) :
    ∀ t : Timer, (∀ x ∈ dts, 0 ≤ x) → t.paused = false → t.repeating = false →
      t.finished = false → t.elapsed < t.duration →
      (t.duration ≤ t.elapsed + dts.sum ∧ (dts.foldl Timer.tick t).finished = true ∧
          (dts.foldl Timer.tick t).elapsed = t.duration) ∨
        (t.elapsed + dts.sum < t.duration ∧ (dts.foldl Timer.tick t).finished = false ∧
          (dts.foldl Timer.tick t).elapsed = t.elapsed + dts.sum) := by
  induction dts with
  | nil =>
    intro t _ _ _ _ hlt
    exact Or.inr ⟨by simpa using hlt, by simpa, by simp⟩
  | cons d dts ih =>
    intro t hnn hp hr hf hlt
    have hrest0 : 0 ≤ dts.sum := List.sum_nonneg fun x hx => hnn x (List.mem_cons_of_mem d hx)
    have hfields := Timer.tick_fields t d
    rw [List.foldl_cons, List.sum_cons]
    by_cases hfin : t.duration ≤ t.elapsed + d
    · have hspec := (Timer.tick_running_spec t d hp hr hf).1 hfin
      have hrun := Timer.run_finished dts (t.tick d)
        (by rw [hfields.2.1, hr]) hspec.1
      exact Or.inl ⟨by linarith, hrun.1, by rw [hrun.2, hspec.2]⟩
    · have hspec := (Timer.tick_running_spec t d hp hr hf).2 hfin
      push_neg at hfin
      have hrest := ih (t.tick d) (fun x hx => hnn x (List.mem_cons_of_mem d hx))
        (by rw [hfields.2.2, hp]) (by rw [hfields.2.1, hr])
        hspec.1 (by rw [hspec.2, hfields.1]; exact hfin)
      rw [hspec.2, hfields.1] at hrest
      rcases hrest with ⟨hsum, hfin2, hel⟩ | ⟨hsum, hfin2, hel⟩
      · exact Or.inl ⟨by linarith, hfin2, by rw [hel]⟩
      · exact Or.inr ⟨by linarith, hfin2, by rw [hel]; ring⟩

/-- The timer sitting inside a freshly constructed and then started cooldown:
elapsed zero, unfinished, non-repeating, unpaused, with the given duration. -/
theorem Cooldown.start_from_seconds_timer (d : ℚ) :
    ((Cooldown.from_seconds d).start).timer =
      { elapsed := 0, duration := d, repeating := false, finished := false,
        times_finished := 0, paused := false } := by
  show ((Timer.new d false).tick d).reset = _
  rw [Timer.reset_spec]
  have h := Timer.tick_fields (Timer.new d false) d
  rw [h.1, h.2.1, h.2.2]
  rfl

/-- Folding `Cooldown.tick` is folding `Timer.tick` on the wrapped timer. -/
theorem Cooldown.foldl_tick_timer (dts : List ℚ) :
    ∀ c : Cooldown, (dts.foldl Cooldown.tick c).timer = dts.foldl Timer.tick c.timer := by
  induction dts with
  | nil => intro c; rfl
  | cons d dts ih => intro c; rw [List.foldl_cons, List.foldl_cons]; exact ih (c.tick d)

/-- Claim C7: for every duration d > 0, a freshly constructed
`Cooldown::from_seconds(d)` reports ready (finished) immediately after
construction, before any `start()` or `tick()` call — the constructor ticks
the new timer by the whole duration. -/
theorem cooldown_ready_after_construction (d : ℚ) (hd : 0 < d) :
    (Cooldown.from_seconds d).finished = true := by
  show ((Timer.new d false).tick d).finished = true
  have h := (Timer.tick_running_spec (Timer.new d false) d rfl rfl rfl).1
  exact (h (by simp [Timer.new])).1

/-- Witness for `cooldown_ready_after_construction` at d = 2, matching the
first assertion of the cooldown test in the repository. -/
theorem cooldown_ready_after_construction_witness :
    (0 : ℚ) < 2 ∧ (Cooldown.from_seconds 2).finished = true :=
  ⟨by decide, cooldown_ready_after_construction 2 (by decide)⟩

/-- Claim C8: for every duration d > 0, immediately after `start()` the
cooldown is not ready; after non-negative ticks whose deltas sum to at least d
it is ready, with elapsed saturated at the duration; and any already-ready
non-repeating cooldown stays ready under further ticks, its elapsed value
unchanged (no overflow, wraparound or re-trigger). -/
theorem cooldown_start_tick_lifecycle (d : ℚ) (hd : 0 < d) (dts : List ℚ)
    (hnn : ∀ x ∈ dts, 0 ≤ x) :
    ((Cooldown.from_seconds d).start.finished = false) ∧
      (d ≤ dts.sum →
        (dts.foldl Cooldown.tick ((Cooldown.from_seconds d).start)).finished = true ∧
          (dts.foldl Cooldown.tick ((Cooldown.from_seconds d).start)).timer.elapsed = d) ∧
      (∀ c : Cooldown, c.timer.repeating = false → c.finished = true → ∀ dt : ℚ,
        (c.tick dt).finished = true ∧ (c.tick dt).timer.elapsed = c.timer.elapsed) := by
  have ht := Cooldown.start_from_seconds_timer d
  refine ⟨?_, ?_, ?_⟩
  · show ((Cooldown.from_seconds d).start).timer.finished = false
    rw [ht]
  · intro hsum
    have hrun := Timer.run_unfinished dts ((Cooldown.from_seconds d).start).timer hnn
      (by rw [ht]) (by rw [ht]) (by rw [ht]) (by rw [ht]; exact hd)
    rw [ht] at hrun
    simp only [zero_add] at hrun
    rcases hrun with ⟨_, hfin, hel⟩ | ⟨hlt, _, _⟩
    · constructor
      · show (dts.foldl Cooldown.tick ((Cooldown.from_seconds d).start)).timer.finished = true
        rw [Cooldown.foldl_tick_timer, ht]
        exact hfin
      · rw [Cooldown.foldl_tick_timer, ht]
        exact hel
    · exact absurd hsum (not_le.mpr hlt)
  · intro c hr hf dt
    exact Timer.tick_finished_of_finished c.timer hr hf dt

/-- Witness for `cooldown_start_tick_lifecycle` at d = 2 with the delta
sequence of the cooldown test in the repository (0.75 then 1.5, summing past 2). -/
theorem cooldown_start_tick_lifecycle_witness :
    ((0 : ℚ) < 2) ∧ (∀ x ∈ ([3 / 4, 3 / 2] : List ℚ), 0 ≤ x) ∧
      ((Cooldown.from_seconds 2).start.finished = false) ∧
      ((([3 / 4, 3 / 2] : List ℚ).foldl Cooldown.tick
        ((Cooldown.from_seconds 2).start)).finished = true) :=
  ⟨by decide, by decide,
   (cooldown_start_tick_lifecycle 2 (by decide) [3 / 4, 3 / 2] (by decide)).1,
   ((cooldown_start_tick_lifecycle 2 (by decide) [3 / 4, 3 / 2] (by decide)).2.1
      (by decide)).1⟩

/-- The zero-duration invariant holds for the freshly built cooldown. -/
theorem zero_duration_inv_init : ZeroDurationInv (Cooldown.from_seconds 0) := by
  unfold ZeroDurationInv
  decide

/-- The zero-duration invariant is preserved by every interface operation
whose tick deltas are non-negative. -/
theorem zero_duration_inv_apply (c : Cooldown) (op : CooldownOp) (h : ZeroDurationInv c)
    (hd : ∀ d : ℚ, op = CooldownOp.tick d → 0 ≤ d) :
    ZeroDurationInv (applyCooldownOp c op) := by
  obtain ⟨hdur, hrep, hpau, hel⟩ := h
  cases op with
  | start => exact ⟨hdur, hrep, hpau, le_refl 0⟩
  | tick d =>
    have hd0 : 0 ≤ d := hd d rfl
    show ZeroDurationInv ⟨c.timer.tick d⟩
    have hfields := Timer.tick_fields c.timer d
    refine ⟨by rw [hfields.1, hdur], by rw [hfields.2.1, hrep], by rw [hfields.2.2, hpau], ?_⟩
    by_cases hf : c.timer.finished = true
    · rw [(Timer.tick_finished_of_finished c.timer hrep hf d).2]
      exact hel
    · have hspec := (Timer.tick_running_spec c.timer d hpau hrep
        (Bool.not_eq_true _ ▸ hf) ).1 (by rw [hdur]; positivity)
      rw [hspec.2, hdur]

/-- The zero-duration invariant survives any non-negative operation run. -/
theorem zero_duration_inv_run (ops : List CooldownOp) :
    ∀ c : Cooldown, ZeroDurationInv c → (∀ d : ℚ, CooldownOp.tick d ∈ ops → 0 ≤ d) →
      ZeroDurationInv (ops.foldl applyCooldownOp c) := by
  induction ops with
  | nil => intro c h _; exact h
  | cons op ops ih =>
    intro c h hnn
    rw [List.foldl_cons]
    exact ih (applyCooldownOp c op)
      (zero_duration_inv_apply c op h fun d hop => hnn d (by rw [hop]; exact List.mem_cons_self _ _))
      (fun d hmem => hnn d (List.mem_cons_of_mem op hmem))

/-- Under the zero-duration invariant, a non-negative tick always lands (or
stays) in the finished state. -/
theorem zero_duration_tick_finished (c : Cooldown) (h : ZeroDurationInv c) (d : ℚ)
    (hd : 0 ≤ d) : ((c.tick d).finished = true) := by
  obtain ⟨hdur, hrep, hpau, hel⟩ := h
  by_cases hf : c.timer.finished = true
  · exact (Timer.tick_finished_of_finished c.timer hrep hf d).1
  · exact ((Timer.tick_running_spec c.timer d hpau hrep (Bool.not_eq_true _ ▸ hf)).1
      (by rw [hdur]; positivity)).1

/-- Counterexample to claim C6 as stated: the zero-duration cooldown is ready
right after construction, but immediately after `start()` — with no
intervening `tick` — it reports not ready, because the bevy `Timer::reset`
unconditionally clears the cached finished flag even when the duration is
zero. -/
theorem zero_duration_cooldown_start_cex :
    (Cooldown.from_seconds 0).finished = true ∧
      ((Cooldown.from_seconds 0).start).finished = false := by
  decide

/-- Claim C6 (amended): a cooldown of duration zero is ready immediately after
construction and at every observation point that follows a `tick` call (with
non-negative deltas, even a zero tick); only in the window between a `start()`
call and the next `tick` does it report not ready. -/
theorem zero_duration_cooldown_amended (ops : List CooldownOp)
    (hnn : ∀ d : ℚ, CooldownOp.tick d ∈ ops → 0 ≤ d) :
    ((Cooldown.from_seconds 0).finished = true) ∧
      (∀ pre d, ops = pre ++ [CooldownOp.tick d] →
        (ops.foldl applyCooldownOp (Cooldown.from_seconds 0)).finished = true) ∧
      (∀ pre, ops = pre ++ [CooldownOp.start] →
        (ops.foldl applyCooldownOp (Cooldown.from_seconds 0)).finished = false) := by
  refine ⟨by decide, ?_, ?_⟩
  · intro pre d hops
    subst hops
    rw [List.foldl_append, List.foldl_cons, List.foldl_nil]
    have hinv := zero_duration_inv_run pre (Cooldown.from_seconds 0) zero_duration_inv_init
      (fun x hx => hnn x (List.mem_append_left _ hx))
    exact zero_duration_tick_finished _ hinv d
      (hnn d (List.mem_append_right _ (List.mem_singleton_self _)))
  · intro pre hops
    subst hops
    rw [List.foldl_append, List.foldl_cons, List.foldl_nil]
    rfl

/-- Witness for `zero_duration_cooldown_amended`: start then a zero tick ends
ready. -/
theorem zero_duration_cooldown_amended_witness :
    (([CooldownOp.start, CooldownOp.tick 0] : List CooldownOp).foldl applyCooldownOp
      (Cooldown.from_seconds 0)).finished = true :=
  (zero_duration_cooldown_amended [CooldownOp.start, CooldownOp.tick 0]
    (by simp)).2.1 [CooldownOp.start] 0 rfl

/-- Clamping always lands in the unit interval. -/
theorem clamp01_bounds (x : ℚ) : 0 ≤ clamp01 x ∧ clamp01 x ≤ 1 := by
  unfold clamp01
  by_cases h0 : x < 0
  · simp [h0]
  · by_cases h1 : 1 < x
    · simp [h0, h1]
    · push_neg at h0 h1
      simp [not_lt.mpr h0, not_lt.mpr h1]
      exact ⟨h0, h1⟩

/-- Every fold of `Heat.inc` over any deltas stays in the unit interval. -/
theorem heat_run_bounds (ds : List ℚ) :
    ∀ h0 : Heat, 0 ≤ h0.amount → h0.amount ≤ 1 →
      0 ≤ (ds.foldl Heat.inc h0).amount ∧ (ds.foldl Heat.inc h0).amount ≤ 1 := by
  induction ds with
  | nil => intro h0 hl hu; exact ⟨hl, hu⟩
  | cons d ds ih =>
    intro h0 _ _
    rw [List.foldl_cons]
    exact ih (h0.inc d) (clamp01_bounds _).1 (clamp01_bounds _).2

/-- Claim C5: heat is a bounded scalar — starting from any amount in [0, 1],
each `inc(delta)` call sets the amount to clamp(previous + delta, 0, 1), and
after any finite sequence of `inc` calls with arbitrary deltas the amount is
still in [0, 1] (every intermediate point is the fold over a prefix, covered
by quantifying over all delta lists). -/
theorem heat_bounded (h0 : Heat) (hl : 0 ≤ h0.amount) (hu : h0.amount ≤ 1)
    (ds : List ℚ) :
    (∀ (h : Heat) (v : ℚ), (h.inc v).amount = clamp01 (h.amount + v)) ∧
      0 ≤ (ds.foldl Heat.inc h0).amount ∧ (ds.foldl Heat.inc h0).amount ≤ 1 :=
  ⟨fun _ _ => rfl, heat_run_bounds ds h0 hl hu⟩

/-- Witness for `heat_bounded`: heat 0, an impulse-sized increment of 0.2 [sic
0.1 in the control step; 0.2 matches the spec scenario] followed by the
stabilisation decrement of -1. -/
theorem heat_bounded_witness :
    ((0 : ℚ) ≤ (⟨0⟩ : Heat).amount ∧ (⟨0⟩ : Heat).amount ≤ 1) ∧
      0 ≤ (([1 / 5, -1] : List ℚ).foldl Heat.inc ⟨0⟩).amount ∧
      (([1 / 5, -1] : List ℚ).foldl Heat.inc ⟨0⟩).amount ≤ 1 :=
  ⟨⟨by decide, by decide⟩, (heat_bounded ⟨0⟩ (by decide) (by decide) [1 / 5, -1]).2⟩

/-- Adding -1 to a heat amount that is at most 1 clamps to max 0 (h - 1). -/
theorem clamp01_add_neg_one (h : ℚ) (hle : h ≤ 1) :
    clamp01 (h + -1) = max 0 (h - 1) := by
  unfold clamp01
  by_cases h0 : h + -1 < 0
  · rw [if_pos h0]
    have : h - 1 ≤ 0 := by linarith
    rw [max_eq_left this]
  · rw [if_neg h0]
    push_neg at h0
    rw [if_neg (by linarith : ¬ 1 < h + -1)]
    have h10 : h - 1 = 0 := by linarith
    rw [(by linarith : h + -1 = h - 1), h10]
    simp

/-- Claim C4: for every state of the shared cooldown (ready or not),
processing a `Stabilisation` event leaves the cooldown untouched and, on every
controlled body, sets the damping to the stabilisation value and decreases the
heat by 1.0 clamped at 0 — the handling is never gated by the cooldown (the
resulting bodies do not depend on the cooldown at all). -/
theorem stabilisation_unconditional (k : Constants) (s : ControlState)
    (hh : ∀ b ∈ s.bodies, b.heat.amount ≤ 1) :
    (applyInputEvent k s InputEvent.Stabilisation).cooldown = s.cooldown ∧
      (applyInputEvent k s InputEvent.Stabilisation).bodies =
        s.bodies.map fun b =>
          { b with linear_damping := k.stabilisation_damping,
                   heat := { amount := max 0 (b.heat.amount - 1) } } := by
  refine ⟨rfl, ?_⟩
  show s.bodies.map _ = s.bodies.map _
  apply List.map_congr_left
  intro b hb
  have hheat : b.heat.inc (-1) = ({ amount := max 0 (b.heat.amount - 1) } : Heat) := by
    show ({ amount := clamp01 (b.heat.amount + -1) } : Heat) = _
    rw [clamp01_add_neg_one b.heat.amount (hh b hb)]
  simp only [hheat]

/-- Witness for `stabilisation_unconditional` on a state whose cooldown was
just started (hence not ready) and whose body carries heat 0.2. -/
theorem stabilisation_unconditional_witness :
    (stab_example_state.cooldown.finished = false) ∧
      (applyInputEvent Constants.default stab_example_state
          InputEvent.Stabilisation).cooldown = stab_example_state.cooldown ∧
      (applyInputEvent Constants.default stab_example_state
          InputEvent.Stabilisation).bodies =
        stab_example_state.bodies.map fun b =>
          { b with linear_damping := Constants.default.stabilisation_damping,
                   heat := { amount := max 0 (b.heat.amount - 1) } } :=
  ⟨by decide, stabilisation_unconditional Constants.default stab_example_state (by decide)⟩

/-- A cooldown-gated event (`Impulse` or `Accelerate`) hitting an unfinished
cooldown is dropped silently: the whole control state is unchanged. -/
theorem big_dropped (k : Constants) (s : ControlState) (e : InputEvent)
    (he : e.usesCooldown = true) (hnf : s.cooldown.finished = false) :
    applyInputEvent k s e = s := by
  cases e with
  | Impulse direction => simp [applyInputEvent, hnf]
  | Accelerate => simp [applyInputEvent, hnf]
  | Force _ => simp [InputEvent.usesCooldown] at he
  | Stabilisation => simp [InputEvent.usesCooldown] at he

/-- A cooldown-gated event hitting a finished cooldown restarts it. -/
theorem big_accepted_cooldown (k : Constants) (s : ControlState) (e : InputEvent)
    (he : e.usesCooldown = true) (hf : s.cooldown.finished = true) :
    (applyInputEvent k s e).cooldown = s.cooldown.start := by
  cases e with
  | Impulse direction => simp [applyInputEvent, hf]
  | Accelerate => simp [applyInputEvent, hf]
  | Force _ => simp [InputEvent.usesCooldown] at he
  | Stabilisation => simp [InputEvent.usesCooldown] at he

/-- A reset timer ticked by less than its duration is not finished. -/
theorem reset_tick_unfinished (t : Timer) (d2 : ℚ) (h : d2 < t.duration) :
    ((t.reset).tick d2).finished = false := by
  rw [Timer.reset_spec]
  unfold Timer.tick
  by_cases hp : t.paused
  · simp [hp]
  · simp [hp, zero_add, not_le.mpr h]

/-- Claim C3: `Impulse` and `Accelerate` share the one cooldown instance.  If
either of the two is accepted on one tick (the cooldown is finished when it is
processed), then on a following tick arriving after dt2 less than the cooldown
duration, the other one (or the same one) is dropped silently: the bodies are
untouched, the only state change is the cooldown advancing by dt2, and the
cooldown is still not ready — no queueing or retry. -/
theorem impulse_accelerate_shared_cooldown (k : Constants) (s : ControlState)
    (dt1 dt2 : ℚ) (e1 e2 : InputEvent)
    (h1 : e1.usesCooldown = true) (h2 : e2.usesCooldown = true)
    (haccept : (s.cooldown.tick dt1).finished = true)
    (hwithin : dt2 < s.cooldown.timer.duration) :
    (apply_forces k dt2 [e2] (apply_forces k dt1 [e1] s)).bodies =
        (apply_forces k dt1 [e1] s).bodies ∧
      (apply_forces k dt2 [e2] (apply_forces k dt1 [e1] s)).cooldown =
        (apply_forces k dt1 [e1] s).cooldown.tick dt2 ∧
      (apply_forces k dt2 [e2] (apply_forces k dt1 [e1] s)).cooldown.finished = false := by
  have hcd1 : (apply_forces k dt1 [e1] s).cooldown = (s.cooldown.tick dt1).start :=
    big_accepted_cooldown k { s with cooldown := s.cooldown.tick dt1 } e1 h1 haccept
  have hnf : ((apply_forces k dt1 [e1] s).cooldown.tick dt2).finished = false := by
    rw [hcd1]
    refine reset_tick_unfinished (s.cooldown.tick dt1).timer dt2 ?_
    show dt2 < (s.cooldown.timer.tick dt1).duration
    rw [(Timer.tick_fields s.cooldown.timer dt1).1]
    exact hwithin
  have hstep : apply_forces k dt2 [e2] (apply_forces k dt1 [e1] s) =
      { cooldown := (apply_forces k dt1 [e1] s).cooldown.tick dt2,
        bodies := (apply_forces k dt1 [e1] s).bodies } :=
    big_dropped k
      { cooldown := (apply_forces k dt1 [e1] s).cooldown.tick dt2,
        bodies := (apply_forces k dt1 [e1] s).bodies } e2 h2 hnf
  rw [hstep]
  exact ⟨rfl, rfl, hnf⟩

/-- Witness for `impulse_accelerate_shared_cooldown`: from the startup state,
an accepted `Impulse` on one tick and an `Accelerate` arriving 0.1 s later
(within the 0.35 s cooldown) leaves the bodies unchanged. -/
theorem impulse_accelerate_shared_cooldown_witness :
    ((initial_state.cooldown.tick 1).finished = true) ∧
      ((1 : ℚ) / 10 < initial_state.cooldown.timer.duration) ∧
      (apply_forces Constants.default (1 / 10) [InputEvent.Accelerate]
          (apply_forces Constants.default 1 [InputEvent.Impulse ⟨1, 0⟩] initial_state)).bodies =
        (apply_forces Constants.default 1 [InputEvent.Impulse ⟨1, 0⟩] initial_state).bodies :=
  ⟨by decide, by decide,
   (impulse_accelerate_shared_cooldown Constants.default initial_state 1 (1 / 10)
      (InputEvent.Impulse ⟨1, 0⟩) InputEvent.Accelerate rfl rfl (by decide) (by decide)).1⟩

/-- Processing one non-`Force` event never changes the persistent force
request. -/
theorem applyInputEvent_preserves_force (k : Constants) (s : ControlState) (e : InputEvent)
    (he : e.isForce = false) :
    (applyInputEvent k s e).bodies.map Body.force = s.bodies.map Body.force := by
  cases e with
  | Force _ => simp [InputEvent.isForce] at he
  | Stabilisation => simp [applyInputEvent, List.map_map, Function.comp]
  | Impulse direction =>
    by_cases hf : s.cooldown.finished
    · simp [applyInputEvent, hf, List.map_map, Function.comp, Body.apply_impulse]
    · simp [applyInputEvent, hf]
  | Accelerate =>
    by_cases hf : s.cooldown.finished
    · simp [applyInputEvent, hf, List.map_map, Function.comp, Body.apply_impulse]
    · simp [applyInputEvent, hf]

/-- Folding any `Force`-free event list leaves every force request unchanged. -/
theorem foldl_preserves_force (k : Constants) (events : List InputEvent) :
    ∀ s : ControlState, (∀ e ∈ events, e.isForce = false) →
      (events.foldl (applyInputEvent k) s).bodies.map Body.force =
        s.bodies.map Body.force := by
  induction events with
  | nil => intro s _; rfl
  | cons e events ih =>
    intro s h
    rw [List.foldl_cons,
      ih (applyInputEvent k s e) (fun x hx => h x (List.mem_cons_of_mem e hx))]
    exact applyInputEvent_preserves_force k s e (h e (List.mem_cons_self e events))

/-- Claim C1 (amended): `apply_forces` performs no force clearing at the start
of the tick (or anywhere else).  Whatever persistent force request a body has
is carried unchanged through every tick that contains no `Force` event — so a
force set on tick N is still present at the start of tick N+1; only a new
`Force` event overwrites it, and any clearing would have to come from the
physics collaborator, not from the control step. -/
theorem force_request_persists (k : Constants) (dt : ℚ) (events : List InputEvent)
    (s : ControlState) (h : ∀ e ∈ events, e.isForce = false) :
    (apply_forces k dt events s).bodies.map Body.force = s.bodies.map Body.force :=
  foldl_preserves_force k events { s with cooldown := s.cooldown.tick dt } h

/-- Witness for `force_request_persists`: a tick carrying only a
`Stabilisation` event leaves the startup force requests untouched. -/
theorem force_request_persists_witness :
    (∀ e ∈ ([InputEvent.Stabilisation] : List InputEvent), e.isForce = false) ∧
      (apply_forces Constants.default 1 [InputEvent.Stabilisation]
          initial_state).bodies.map Body.force =
        initial_state.bodies.map Body.force :=
  ⟨by decide,
   force_request_persists Constants.default 1 [InputEvent.Stabilisation] initial_state
     (by decide)⟩

/-- Counterexample to claim C1 as stated: a `Force` event on tick N sets the
persistent force request of the player to (6, 0); the next tick N+1 carries no
events at all, yet at its start (equivalently after it, since it applies no
event) the force request is still (6, 0), not zero — `apply_forces` contains
no clearing step. -/
theorem force_cleared_at_tick_start_cex :
    (apply_forces Constants.default 1 []
        (apply_forces Constants.default 1 [InputEvent.Force ⟨1, 0⟩]
          initial_state)).bodies.map Body.force = [⟨6, 0⟩] ∧
      (⟨6, 0⟩ : Vec2) ≠ 0 := by
  decide

/-- Claim C2, evaluated at the failing input: one connected gamepad whose left
stick rests at the zero vector and whose South button was just released makes
`gamepad_system` emit an `Impulse` event anyway — the glam `normalize` of the
zero vector (non-finite direction payload) is sent without any zero check, so
a zero combined input does produce an `Impulse`. -/
theorem gamepad_zero_stick_emits_impulse :
    gamepad_system [{ south_just_pressed := false, south_just_released := true,
                      left_stick_x := 0, left_stick_y := 0 }] =
      [InputEvent.Impulse (Vec2.normalize ⟨0, 0⟩)] ∧
      (⟨0, 0⟩ : Vec2) = 0 := by
  decide

/-- The keyboard producer, in contrast, does suppress zero-direction emission:
when the summed directional input normalises to the zero vector, no `Impulse`
and no `Force` event appears in its output (the two zero checks in
src/inputs.rs `keyboard_system`). -/
theorem keyboard_zero_direction_suppressed (kb : KeyboardInputs)
    (h : keyboard_direction kb = 0) :
    ∀ d : Vec2, InputEvent.Impulse d ∉ keyboard_system kb ∧
      InputEvent.Force d ∉ keyboard_system kb := by
  intro d
  constructor <;> simp [keyboard_system, h]

/-- Witness-style instance of `keyboard_zero_direction_suppressed`: Up and
Down held together cancel to the zero vector and produce no `Force` event. -/
theorem keyboard_up_down_no_force :
    InputEvent.Force ⟨0, 1⟩ ∉ keyboard_system
      { pressed := fun k => match k with | Key.up => true | Key.down => true | _ => false,
        just_pressed := fun _ => false,
        just_released := fun _ => false } :=
  (keyboard_zero_direction_suppressed _ (by decide) ⟨0, 1⟩).2

/-- Claim C10: on a tick where Space was just released (and is hence no longer
pressed) while the held arrow keys combine to a non-zero direction, the
keyboard decoder emits both an `Impulse` and a `Force` event, both carrying
the same direction vector `keyboard_direction`. -/
theorem space_release_emits_impulse_and_force (kb : KeyboardInputs)
    (hrel : kb.just_released Key.space = true)
    (hnp : kb.pressed Key.space = false)
    (hdir : keyboard_direction kb ≠ 0) :
    InputEvent.Impulse (keyboard_direction kb) ∈ keyboard_system kb ∧
      InputEvent.Force (keyboard_direction kb) ∈ keyboard_system kb := by
  constructor <;> simp [keyboard_system, hrel, hnp, hdir, List.mem_append]

/-- Witness for `space_release_emits_impulse_and_force` on the concrete
release-tick snapshot `kb_release_example` (Up held, Space just released). -/
theorem space_release_emits_impulse_and_force_witness :
    (kb_release_example.just_released Key.space = true) ∧
      (kb_release_example.pressed Key.space = false) ∧
      (keyboard_direction kb_release_example ≠ 0) ∧
      InputEvent.Impulse (keyboard_direction kb_release_example) ∈
        keyboard_system kb_release_example ∧
      InputEvent.Force (keyboard_direction kb_release_example) ∈
        keyboard_system kb_release_example :=
  ⟨rfl, rfl, by decide,
   space_release_emits_impulse_and_force kb_release_example rfl rfl (by decide)⟩

/-- Claim C9: the control step is deterministic — it is a pure function of the
configuration constants, the per-tick deltas and event lists, and the initial
cooldown/body state, so two runs on equal inputs produce the identical
trajectory of cooldown and body states (hence identical readiness, heat,
damping, impulse and force values at every tick). -/
theorem control_step_deterministic (k1 k2 : Constants) (ticks1 ticks2 : List TickInput)
    (s1 s2 : ControlState) (hk : k1 = k2) (ht : ticks1 = ticks2) (hs : s1 = s2) :
    control_trace k1 ticks1 s1 = control_trace k2 ticks2 s2 := by
  subst hk
  subst ht
  subst hs
  rfl

/-- Witness for `control_step_deterministic` on a concrete one-tick run. -/
theorem control_step_deterministic_witness :
    control_trace Constants.default [{ dt := 1, events := [InputEvent.Stabilisation] }]
        initial_state =
      control_trace Constants.default [{ dt := 1, events := [InputEvent.Stabilisation] }]
        initial_state :=
  control_step_deterministic Constants.default Constants.default
    [{ dt := 1, events := [InputEvent.Stabilisation] }]
    [{ dt := 1, events := [InputEvent.Stabilisation] }]
    initial_state initial_state rfl rfl rfl

end

end Hamsteroid
